import Mathlib

/-!
Verification of `mailer.py` (Excel -> Outlook mailer).

The file shallowly embeds the string-processing core of the program:
the contact loader (`load_contacts`), the salutation builder
(`build_anrede_brief` with its nested helper `pick`), the signature
resolver (`read_signature`, `read_default_signature` and the resolution
step of `main`), the template renderer's signature splice (`render_html`),
the list-field parser (`parse_list_field`), and the per-row dispatch
decision of `main`'s loop (`processRow`, `send_outlook`).

External effects are modelled explicitly:
spreadsheet rows are lists of `Option String` cells (a `none` cell is
Python's `None`, whose `str` form is `"None"`); the Outlook COM object is
the record `MailItem` that collects exactly the fields the code assigns;
the filesystem check `fp.exists()` used for attachments is an explicit
`fileExists` predicate; the signature store directory is an
`Option (List SigFile)` (`none` = directory absent); Jinja2 template
expansion is an explicit `expand` function from the render context to the
expanded body, since the claims under study quantify over the expanded
body.  Python's string primitives (`strip`, `lower`, `startswith`,
`split`, `join`, substring test, `re.sub`) are implemented over the
character list of the string so that every definition evaluates inside
the kernel; casefolding is ASCII, which matches Python on ASCII input.
-/

/-- Whitespace as recognized by Python's `str.strip` on ASCII text:
space, tab, newline, carriage return, vertical tab, form feed. -/
def pyWhitespace (c : Char) : Bool :=
  c = ' ' || c = '\t' || c = '\n' || c = '\r' || c = '\x0b' || c = '\x0c'

/-- Strip leading and trailing whitespace from a character list. -/
def trimChars (l : List Char) : List Char :=
  ((l.dropWhile pyWhitespace).reverse.dropWhile pyWhitespace).reverse

/-- Python `s.strip()`. -/
def strTrim (s : String) : String :=
  String.mk (trimChars s.data)

/-- ASCII lowercasing of one character, as Python `str.lower` and
`re.IGNORECASE` act on ASCII text. -/
def lowerChar (c : Char) : Char :=
  if c.toNat ≥ 65 && c.toNat ≤ 90 then Char.ofNat (c.toNat + 32) else c

/-- Python `s.lower()` (ASCII). -/
def strLower (s : String) : String :=
  String.mk (s.data.map lowerChar)

/-- Python `s.startswith(pre)`. -/
def strStartsWith (s pre : String) : Bool :=
  List.isPrefixOf pre.data s.data

/-- Split a character list at every character satisfying `p`, keeping
empty pieces, as `re.split` with a single-character class does. -/
def splitChars (p : Char → Bool) : List Char → List (List Char)
  | [] => [[]]
  | c :: cs =>
    if p c then [] :: splitChars p cs
    else
      match splitChars p cs with
      | [] => [[c]]
      | g :: gs => (c :: g) :: gs

/-- Python `re.split(r"[;,]", val)`-style splitting of a string. -/
def strSplit (p : Char → Bool) (s : String) : List String :=
  (splitChars p s.data).map String.mk

/-- Python `" ".join(parts)`. -/
def joinWithSpace : List String → String
  | [] => ""
  | [x] => x
  | x :: xs => x ++ " " ++ joinWithSpace xs

/-- Models `normalize` (mailer.py line 64): `(s or "").strip()` for a
string argument; the `None` case is handled at call sites (`cellVal`). -/
def normalizeStr (s : String) : String :=
  strTrim s

/-- String form and normalization of one data cell
(mailer.py line 119): `normalize(str(v)) if v is not None else ""`. -/
def cellVal : Option String → String
  | some s => normalizeStr s
  | none => ""

/-- Normalization of one header cell (mailer.py line 113):
`normalize(str(h)).lower()`.  Note `str(None) = "None"`, so a blank
header cell becomes the key `"none"`, not a synthesized name. -/
def headerKey : Option String → String
  | some s => strLower (normalizeStr s)
  | none => strLower (normalizeStr "None")

/-- A Python `dict` with string keys and values, as an insertion-ordered
association list without duplicate keys. -/
abbrev Dict := List (String × String)

/-- Python dict assignment `d[k] = v`: replace the value at an existing
key in place, otherwise append the new pair at the end. -/
def dictSet : Dict → String → String → Dict
  | [], k, v => [(k, v)]
  | kv :: tl, k, v => if kv.1 = k then (k, v) :: tl else kv :: dictSet tl k v

/-- Python `d.get(k)`: the value stored at `k`, if any. -/
def dictGet : Dict → String → Option String
  | [], _ => none
  | kv :: tl, k => if kv.1 = k then some kv.2 else dictGet tl k

/-- Python `d.get(k, dflt)`. -/
def dictGetD (d : Dict) (k : String) (dflt : String) : String :=
  (dictGet d k).getD dflt

/-- The record key used for the cell at 0-based column index `i`
(mailer.py line 118): the normalized header when the header row is long
enough, else the synthesized positional name `f"spalte_{i+1}"`. -/
def keyAt (headers : List String) (i : Nat) : String :=
  if h : i < headers.length then headers.get ⟨i, h⟩
  else "spalte_" ++ toString (i + 1)

/-- The loop `for i, v in enumerate(r): rec[key] = ...`
(mailer.py lines 116-119), carried out from column index `i` with the
dict built so far. -/
def buildRecAux (headers : List String) : Nat → Dict → List (Option String) → Dict
  | _, d, [] => d
  | i, d, v :: tl => buildRecAux headers (i + 1) (dictSet d (keyAt headers i) (cellVal v)) tl

/-- The record built from one data row (mailer.py lines 116-119). -/
def buildRec (headers : List String) (r : List (Option String)) : Dict :=
  buildRecAux headers 0 [] r

/-- Models `load_contacts` (mailer.py lines 99-122) on the cell rows of
the selected sheet: fewer than two rows yield no contacts; the first row
gives the normalized headers; every later row becomes a record, and only
records with a non-empty `email` value are kept
(`if rec.get("email", "")`). Sheet selection and workbook reading are
I/O outside the model. -/
def load_contacts (rows : List (List (Option String))) : List Dict :=
  if rows.length < 2 then []
  else
    match rows with
    | [] => []
    | hdr :: body =>
      (body.map (buildRec (hdr.map headerKey))).filter (fun r => dictGetD r "email" "" != "")

/-- Models the nested helper `pick(fb)` of `build_anrede_brief`
(mailer.py lines 84-90); the title `t` it closes over is passed
explicitly (already normalized by the caller). -/
def pick (fb t : String) : String :=
  if t = "" then fb
  else if strStartsWith (strLower t) "herr" || strStartsWith (strLower t) "frau" then t
  else fb ++ " " ++ t

/-- The full name computed by `build_anrede_brief` (mailer.py line 82):
`" ".join(x for x in [normalize(vorname), normalize(nachname)] if x).strip()`. -/
def full_name (vorname nachname : String) : String :=
  strTrim (joinWithSpace (([normalizeStr vorname, normalizeStr nachname]).filter (fun x => x != "")))

/-- Models `build_anrede_brief` (mailer.py lines 78-96). -/
def build_anrede_brief (anrede titel vorname nachname : String) : String :=
  let a := strLower (normalizeStr anrede)
  let t := normalizeStr titel
  let ln := normalizeStr nachname
  let fn := full_name vorname nachname
  if a = "herr" then strTrim ("Sehr geehrter " ++ pick "Herr" t ++ " " ++ (if ln != "" then ln else fn))
  else if a = "frau" then strTrim ("Sehr geehrte " ++ pick "Frau" t ++ " " ++ (if ln != "" then ln else fn))
  else if fn != "" then "Guten Tag " ++ fn else "Guten Tag"

/-- Models `parse_list_field` (mailer.py lines 158-163):
split on `,` or `;` (`re.split(r"[;,]", val)`), strip each piece, drop
empty pieces. -/
def parse_list_field (val : String) : List String :=
  if val = "" then []
  else ((strSplit (fun ch => ch = ',' || ch = ';') val).map strTrim).filter (fun p => p != "")

/-- Python substring test `tok in s` on character lists (for a non-empty
token). -/
def hasSub (tok : List Char) : List Char → Bool
  | [] => List.isPrefixOf tok []
  | c :: cs => List.isPrefixOf tok (c :: cs) || hasSub tok cs

/-- The characters of the signature marker `"<!--SIGNATURE-->"`. -/
def sigMarkerUpper : List Char :=
  ['<', '!', '-', '-', 'S', 'I', 'G', 'N', 'A', 'T', 'U', 'R', 'E', '-', '-', '>']

/-- The characters of the signature marker `"<!--signature-->"`. -/
def sigMarkerLower : List Char :=
  ['<', '!', '-', '-', 's', 'i', 'g', 'n', 'a', 't', 'u', 'r', 'e', '-', '-', '>']

/-- Does the character list begin with the 16-character signature marker,
compared case-insensitively?  This is a match of the regular expression
`<!--signature-->|<!--SIGNATURE-->` under `re.I` at the current
position (both alternatives match the same strings case-insensitively). -/
def markerAt : List Char → Bool
  | c0 :: c1 :: c2 :: c3 :: c4 :: c5 :: c6 :: c7 :: c8 :: c9 :: ca :: cb :: cc :: cd :: ce :: cf :: _ =>
    c0 = '<' && c1 = '!' && c2 = '-' && c3 = '-' &&
    lowerChar c4 = 's' && lowerChar c5 = 'i' && lowerChar c6 = 'g' && lowerChar c7 = 'n' &&
    lowerChar c8 = 'a' && lowerChar c9 = 't' && lowerChar ca = 'u' && lowerChar cb = 'r' &&
    lowerChar cc = 'e' && cd = '-' && ce = '-' && cf = '>'
  | _ => false

/-- Is the case-insensitive signature marker matched anywhere in the
list? -/
def hasCI : List Char → Bool
  | [] => false
  | c :: cs => markerAt (c :: cs) || hasCI cs

/-- Scanning-side condition for `replaceCI`: while consuming `s` as the
prefix of `s ++ t`, no position of `s` begins a case-insensitive match
of the signature marker (matches may inspect characters of `t`). -/
def scanClean : List Char → List Char → Bool
  | [], _ => true
  | c :: cs, t => !(markerAt (c :: (cs ++ t))) && scanClean cs t

/-- Python `re.sub(r"<!--signature-->|<!--SIGNATURE-->", repl, s, flags=re.I)`
(mailer.py line 152): scan left to right, replacing every
(non-overlapping) case-insensitive occurrence of the 16-character marker
by `repl`.  The replacement text is spliced literally; the mailer's
signature HTML is assumed to contain no `re.sub` backreference escapes. -/
def replaceCI (repl : List Char) : List Char → List Char
  | c0 :: c1 :: c2 :: c3 :: c4 :: c5 :: c6 :: c7 :: c8 :: c9 :: ca :: cb :: cc :: cd :: ce :: cf :: rest =>
    if markerAt (c0 :: c1 :: c2 :: c3 :: c4 :: c5 :: c6 :: c7 :: c8 :: c9 :: ca :: cb :: cc :: cd :: ce :: cf :: rest) then
      repl ++ replaceCI repl rest
    else
      c0 :: replaceCI repl (c1 :: c2 :: c3 :: c4 :: c5 :: c6 :: c7 :: c8 :: c9 :: ca :: cb :: cc :: cd :: ce :: cf :: rest)
  | c :: cs => c :: replaceCI repl cs
  | [] => []

/-- Models the signature-splice part of `render_html`
(mailer.py lines 150-155), applied to the already-expanded template body
`html` (the Jinja2 expansion and the template file read are external to
the model): if a non-empty signature is supplied and the body contains
the marker in one of the two exact spellings `<!--SIGNATURE-->` or
`<!--signature-->`, every case-insensitive occurrence of the marker is
substituted; otherwise the signature is appended after a `<br>`; an
empty signature leaves the body untouched. -/
def render_html (html : String) (signature_html : String) : String :=
  if signature_html ≠ "" then
    if hasSub sigMarkerUpper html.data || hasSub sigMarkerLower html.data then
      String.mk (replaceCI signature_html.data html.data)
    else html ++ "<br>" ++ signature_html
  else html

/-- The Outlook mail item as `send_outlook` (mailer.py lines 177-202)
fills it in: `CC`/`BCC` are set only when non-empty (to the raw field
string, verbatim), attachments are the parsed paths that exist on disk
(`add_attachments`), and `displayed` records whether the item is opened
for review (`mail.Display`) instead of sent (`mail.Send`). -/
structure MailItem where
  to_addr : String
  cc : Option String
  bcc : Option String
  subject : String
  htmlBody : String
  attachAdded : List String
  displayed : Bool
deriving DecidableEq

/-- Models `add_attachments` (mailer.py lines 166-174): the paths whose
files exist are attached; a missing path is only warned about. -/
def add_attachments (fileExists : String → Bool) (field_value : String) : List String :=
  (parse_list_field field_value).filter fileExists

/-- Models `send_outlook` (mailer.py lines 177-202) as the construction
of the `MailItem` handed to Outlook. -/
def send_outlook (fileExists : String → Bool) (to_addr subject html : String)
    (cc bcc attachments : String) (display : Bool) : MailItem :=
  { to_addr := to_addr
    cc := if cc != "" then some cc else none
    bcc := if bcc != "" then some bcc else none
    subject := subject
    htmlBody := html
    attachAdded := if attachments != "" then add_attachments fileExists attachments else []
    displayed := display }

/-- One `.htm` file of the signature store: name stem, modification
time, content. -/
structure SigFile where
  name : String
  mtime : Nat
  content : String
deriving DecidableEq

/-- The directory listing of the signature store; the store being
`none` models an absent `APPDATA/Microsoft/Signatures` directory. -/
def storeFiles : Option (List SigFile) → List SigFile
  | none => []
  | some files => files

/-- Models `read_signature` (mailer.py lines 130-134): read
`<store>/<name>.htm` if that file exists, else raise
`FileNotFoundError` (an absent store directory means no file exists). -/
def read_signature (sig_name : String) (store : Option (List SigFile)) : Except String String :=
  match (storeFiles store).find? (fun f => f.name == sig_name) with
  | some f => Except.ok f.content
  | none => Except.error (sig_name ++ ".htm")

/-- The `.htm` file with the latest modification time, earliest listed
winning ties.  This equals
`sorted(candidates, key=mtime, reverse=True)[0]` of
`read_default_signature`, since Python's sort is stable. -/
def pickLatest : List SigFile → Option SigFile
  | [] => none
  | f :: fs =>
    match pickLatest fs with
    | none => some f
    | some g => if g.mtime > f.mtime then some g else some f

/-- Models `read_default_signature` (mailer.py lines 137-144): error if
the store directory is absent or holds no `.htm` file, else the content
of the newest one. -/
def read_default_signature (store : Option (List SigFile)) : Except String String :=
  match store with
  | none => Except.error "Signatures"
  | some files =>
    match pickLatest files with
    | none => Except.error "Keine .htm-Signatur gefunden"
    | some f => Except.ok f.content

/-- Models the signature-resolution step of `main`
(mailer.py lines 272-285): the resulting signature string together with
a flag recording whether a warning was printed.  Every failure is caught
and downgraded to a warning with the empty signature. -/
def resolveSignature (sig : String) (store : Option (List SigFile)) : String × Bool :=
  if strLower sig = "auto" then
    match read_default_signature store with
    | Except.ok s => (s, false)
    | Except.error _ => ("", true)
  else if strLower sig = "none" then ("", false)
  else
    match read_signature sig store with
    | Except.ok s => (s, false)
    | Except.error _ => ("", true)

/-- The outcome of one iteration of `main`'s contact loop
(mailer.py lines 293-363): silently skipped for a blank email, skipped
with a warning (counted as failed) for a missing subject in live mode,
printed as a dry-run preview, or handed to the Outlook transport. -/
inductive RowAction where
  | skipNoEmail : RowAction
  | skipNoSubject : RowAction
  | preview (to_addr subjectLine cc bcc anhang html : String) : RowAction
  | send (m : MailItem) : RowAction
deriving DecidableEq

/-- Models the render-context construction of `main`
(mailer.py lines 309-324): the fixed fields, the computed
`AnredeBrief`, then every remaining record field whose lowercased key
is not already present. -/
def buildCtx (c : Dict) : Dict :=
  let ctx0 : Dict :=
    [("Email", dictGetD c "email" ""), ("Anrede", dictGetD c "anrede" ""),
     ("Vorname", dictGetD c "vorname" ""), ("Nachname", dictGetD c "nachname" ""),
     ("Firma", dictGetD c "firma" ""), ("Titel", dictGetD c "titel" "")]
  let ctx1 := dictSet ctx0 "AnredeBrief"
    (build_anrede_brief (dictGetD c "anrede" "") (dictGetD c "titel" "")
      (dictGetD c "vorname" "") (dictGetD c "nachname" ""))
  c.foldl (fun ctx kv => if ctx.any (fun e => strLower e.1 == strLower kv.1) then ctx else dictSet ctx kv.1 kv.2) ctx1

/-- Models the body of `main`'s per-contact loop
(mailer.py lines 293-363) up to the action taken for the row; `expand`
is the Jinja2 expansion of the fixed template as a function of the
render context, and `fileExists` the filesystem as seen by
`add_attachments`. -/
def processRow (fileExists : String → Bool) (dry display : Bool) (global_subject : String)
    (expand : Dict → String) (signature_html : String) (c : Dict) : RowAction :=
  let email := dictGetD c "email" ""
  if email = "" then RowAction.skipNoEmail
  else
    let row_subject := strTrim (dictGetD c "betreff" "")
    let subject := if row_subject != "" then row_subject else global_subject
    if subject = "" ∧ dry = false then RowAction.skipNoSubject
    else
      let html := render_html (expand (buildCtx c)) signature_html
      let cc_raw := dictGetD c "cc" ""
      let bcc_raw := dictGetD c "bcc" ""
      let attach_raw := if dictGetD c "anhangpfad" "" != "" then dictGetD c "anhangpfad" "" else dictGetD c "anhang" ""
      if dry then
        RowAction.preview email (if subject != "" then subject else "(leer)") cc_raw bcc_raw attach_raw html
      else
        RowAction.send (send_outlook fileExists email subject html cc_raw bcc_raw attach_raw display)

/-- Does the row action add one to `main`'s `failed` counter at the
skip branch (mailer.py line 306)?  Failures of the Outlook send call
itself are external and not modelled. -/
def countsAsFailed : RowAction → Bool
  | RowAction.skipNoSubject => true
  | _ => false

/-- The value written last (by the rightmost column, 0-based column
index at least `i`) for key `k` when `buildRecAux` scans the remaining
cells from column index `i`; specification-side companion of
`buildRecAux` used to state the duplicate-header behavior. -/
def lastWrite (headers : List String) : Nat → List (Option String) → String → Option String
  | _, [], _ => none
  | i, v :: tl, k =>
    match lastWrite headers (i + 1) tl k with
    | some w => some w
    | none => if keyAt headers i = k then some (cellVal v) else none

/-! ## Helper lemmas -/

theorem dictGet_dictSet (d : Dict) (k v k' : String) :
    dictGet (dictSet d k v) k' = if k = k' then some v else dictGet d k' := by
  induction d with
  | nil =>
    by_cases h : k = k' <;> simp [dictSet, dictGet, h]
  | cons kv tl ih =>
    simp only [dictSet]
    by_cases h1 : kv.1 = k
    · simp only [if_pos h1, dictGet]
      by_cases h2 : k = k'
      · simp [h2]
      · have h3 : ¬ kv.1 = k' := by rw [h1]; exact h2
        simp [h2, h3]
    · simp only [if_neg h1, dictGet, ih]
      by_cases h2 : kv.1 = k'
      · have h3 : ¬ k = k' := by rw [← h2]; intro hc; exact h1 hc.symm
        simp [h2, h3]
      · simp [h2]

theorem isPrefixOf_self_append (l t : List Char) : List.isPrefixOf l (l ++ t) = true := by
  induction l with
  | nil => simp [List.isPrefixOf]
  | cons a as ih => simp [List.isPrefixOf, ih]

theorem hasSub_of_isPrefixOf (tok s : List Char) (h : List.isPrefixOf tok s = true) :
    hasSub tok s = true := by
  cases s with
  | nil => simpa [hasSub] using h
  | cons c cs => simp [hasSub, h]

theorem hasSub_append_right (tok s t : List Char) (h : hasSub tok t = true) :
    hasSub tok (s ++ t) = true := by
  induction s with
  | nil => simpa using h
  | cons c cs ih => simp [hasSub, ih]

theorem replaceCI_cons_of_not_marker (repl : List Char) (c : Char) (cs : List Char)
    (h : markerAt (c :: cs) = false) :
    replaceCI repl (c :: cs) = c :: replaceCI repl cs := by
  rcases cs with _ | ⟨c1, cs⟩
  · rfl
  rcases cs with _ | ⟨c2, cs⟩
  · rfl
  rcases cs with _ | ⟨c3, cs⟩
  · rfl
  rcases cs with _ | ⟨c4, cs⟩
  · rfl
  rcases cs with _ | ⟨c5, cs⟩
  · rfl
  rcases cs with _ | ⟨c6, cs⟩
  · rfl
  rcases cs with _ | ⟨c7, cs⟩
  · rfl
  rcases cs with _ | ⟨c8, cs⟩
  · rfl
  rcases cs with _ | ⟨c9, cs⟩
  · rfl
  rcases cs with _ | ⟨ca, cs⟩
  · rfl
  rcases cs with _ | ⟨cb, cs⟩
  · rfl
  rcases cs with _ | ⟨cc, cs⟩
  · rfl
  rcases cs with _ | ⟨cd, cs⟩
  · rfl
  rcases cs with _ | ⟨ce, cs⟩
  · rfl
  rcases cs with _ | ⟨cf, cs⟩
  · rfl
  · simp only [replaceCI, h]
    simp

theorem replaceCI_no_occ (repl : List Char) : ∀ (s : List Char), hasCI s = false →
    replaceCI repl s = s := by
  intro s
  induction s with
  | nil => intro _; rfl
  | cons c cs ih =>
    intro h
    have h1 : markerAt (c :: cs) = false ∧ hasCI cs = false := by
      simpa [hasCI] using h
    rw [replaceCI_cons_of_not_marker repl c cs h1.1, ih h1.2]

theorem replaceCI_append_of_scanClean (repl : List Char) : ∀ (s t : List Char),
    scanClean s t = true → replaceCI repl (s ++ t) = s ++ replaceCI repl t := by
  intro s
  induction s with
  | nil => intro t _; rfl
  | cons c cs ih =>
    intro t h
    have h1 : markerAt (c :: (cs ++ t)) = false ∧ scanClean cs t = true := by
      simpa [scanClean] using h
    have : (c :: cs) ++ t = c :: (cs ++ t) := rfl
    rw [this, replaceCI_cons_of_not_marker repl _ _ h1.1, ih t h1.2]
    rfl

theorem replaceCI_markerU (repl t : List Char) :
    replaceCI repl (sigMarkerUpper ++ t) = repl ++ replaceCI repl t := by
  show replaceCI repl
      ('<' :: '!' :: '-' :: '-' :: 'S' :: 'I' :: 'G' :: 'N' :: 'A' :: 'T' :: 'U' :: 'R' :: 'E' :: '-' :: '-' :: '>' :: t)
    = repl ++ replaceCI repl t
  simp only [replaceCI]
  rw [if_pos]
  rfl

theorem replaceCI_markerL (repl t : List Char) :
    replaceCI repl (sigMarkerLower ++ t) = repl ++ replaceCI repl t := by
  show replaceCI repl
      ('<' :: '!' :: '-' :: '-' :: 's' :: 'i' :: 'g' :: 'n' :: 'a' :: 't' :: 'u' :: 'r' :: 'e' :: '-' :: '-' :: '>' :: t)
    = repl ++ replaceCI repl t
  simp only [replaceCI]
  rw [if_pos]
  rfl

theorem dictGet_buildRecAux (headers : List String) : ∀ (r : List (Option String)) (i : Nat) (d : Dict) (k : String),
    dictGet (buildRecAux headers i d r) k
      = match lastWrite headers i r k with
        | some w => some w
        | none => dictGet d k := by
  intro r
  induction r with
  | nil => intro i d k; rfl
  | cons v tl ih =>
    intro i d k
    simp only [buildRecAux, lastWrite]
    rw [ih]
    cases hlw : lastWrite headers (i + 1) tl k with
    | some w => simp
    | none =>
      simp only [dictGet_dictSet]
      split <;> simp

theorem lastWrite_none (headers : List String) (k : String) : ∀ (r : List (Option String)) (i : Nat),
    (∀ m, i ≤ m → m < i + r.length → keyAt headers m ≠ k) → lastWrite headers i r k = none := by
  intro r
  induction r with
  | nil => intro i _; rfl
  | cons v tl ih =>
    intro i h
    simp only [lastWrite]
    rw [ih (i + 1) (fun m h1 h2 => h m (by omega) (by simp only [List.length_cons]; omega))]
    rw [if_neg (h i (by omega) (by simp only [List.length_cons]; omega))]

theorem lastWrite_last (headers : List String) (k : String) : ∀ (r : List (Option String)) (i j : Nat),
    i ≤ j → j - i < r.length → keyAt headers j = k →
    (∀ m, j < m → m < i + r.length → keyAt headers m ≠ k) →
    lastWrite headers i r k = some (cellVal (r.getD (j - i) none)) := by
  intro r
  induction r with
  | nil => intro i j _ hj _ _; simp at hj
  | cons v tl ih =>
    intro i j hij hj hkey hafter
    simp only [lastWrite]
    by_cases hji : j = i
    · subst hji
      rw [lastWrite_none headers k tl (j + 1)
        (fun m h1 h2 => hafter m (by omega) (by simp only [List.length_cons]; omega))]
      rw [if_pos hkey]
      simp
    · have hij1 : j - (i + 1) < tl.length := by
        simp [List.length_cons] at hj
        omega
      rw [ih (i + 1) j (by omega) hij1 hkey
        (fun m h1 h2 => hafter m h1 (by simp only [List.length_cons] at h2 ⊢; omega))]
      have hidx : j - i = (j - (i + 1)) + 1 := by omega
      rw [hidx]
      simp

/-! ## Claim theorems -/

/-- Claim C10: with an empty signature string, the renderer returns the
expanded template body exactly — nothing is appended and any marker
token in the body survives verbatim. -/
theorem render_html_empty_signature (html : String) : render_html html "" = html := by
  simp [render_html]

/-- Claim C1, counterexample: the mixed-case marker `<!--Signature-->`
is a case-insensitive occurrence of the marker token, yet with the
non-empty signature `"SIG"` the renderer does not replace it: it
appends the signature after a `<br>` and the marker survives in the
output (`hasCI` still finds it). -/
theorem render_html_mixed_case_marker_counterexample :
    render_html "<!--Signature-->" "SIG" = "<!--Signature--><br>SIG"
    ∧ hasCI ("<!--Signature--><br>SIG").data = true
    ∧ ("SIG" : String) ≠ "" := by
  refine ⟨by decide, by decide, by decide⟩

/-- Claim C1 (amended): for a non-empty signature, (1) when the expanded
body contains neither exact spelling `<!--SIGNATURE-->` nor
`<!--signature-->`, the result is the body followed by a `<br>` line
break and the signature, appended exactly once; (2) when the body is
`pre ++ M ++ post` for one of the two exact spellings `M`, with no
case-insensitive marker occurrence starting inside `pre` or inside
`post`, the result is `pre ++ signature ++ post`: the signature stands
exactly where the marker was and the marker is gone. -/
theorem render_html_signature_rule (sig html pre post : String) (M : List Char) (hsig : sig ≠ "") :
    (hasSub sigMarkerUpper html.data = false → hasSub sigMarkerLower html.data = false →
      render_html html sig = html ++ "<br>" ++ sig)
    ∧ (M = sigMarkerUpper ∨ M = sigMarkerLower →
       html = pre ++ String.mk M ++ post →
       scanClean pre.data (M ++ post.data) = true →
       hasCI post.data = false →
       render_html html sig = pre ++ sig ++ post) := by
  constructor
  · intro h1 h2
    simp [render_html, hsig, h1, h2]
  · intro hM hhtml hscan hpost
    subst hhtml
    have hdata : (pre ++ String.mk M ++ post).data = pre.data ++ (M ++ post.data) := by
      show (pre.data ++ M) ++ post.data = pre.data ++ (M ++ post.data)
      rw [List.append_assoc]
    have hguard : (hasSub sigMarkerUpper (pre ++ String.mk M ++ post).data
        || hasSub sigMarkerLower (pre ++ String.mk M ++ post).data) = true := by
      rcases hM with rfl | rfl
      · rw [hdata]
        have hU : hasSub sigMarkerUpper (pre.data ++ (sigMarkerUpper ++ post.data)) = true :=
          hasSub_append_right _ _ _ (hasSub_of_isPrefixOf _ _ (isPrefixOf_self_append _ _))
        simp [hU]
      · rw [hdata]
        have hL : hasSub sigMarkerLower (pre.data ++ (sigMarkerLower ++ post.data)) = true :=
          hasSub_append_right _ _ _ (hasSub_of_isPrefixOf _ _ (isPrefixOf_self_append _ _))
        simp [hL]
    unfold render_html
    rw [if_pos hsig, if_pos hguard, hdata,
      replaceCI_append_of_scanClean sig.data pre.data (M ++ post.data) hscan]
    rcases hM with rfl | rfl
    · rw [replaceCI_markerU sig.data post.data, replaceCI_no_occ sig.data post.data hpost]
      show String.mk (pre.data ++ (sig.data ++ post.data)) = String.mk ((pre.data ++ sig.data) ++ post.data)
      rw [List.append_assoc]
    · rw [replaceCI_markerL sig.data post.data, replaceCI_no_occ sig.data post.data hpost]
      show String.mk (pre.data ++ (sig.data ++ post.data)) = String.mk ((pre.data ++ sig.data) ++ post.data)
      rw [List.append_assoc]

/-- Witness for C1 (amended), at concrete inputs: a body with no marker
gets the signature appended once after a `<br>`; the body
`A<!--SIGNATURE-->B` with the marker exactly once becomes `A`,
signature, `B`. -/
theorem render_html_signature_rule_witness :
    render_html "x" "S" = "x<br>S" ∧ render_html "A<!--SIGNATURE-->B" "S" = "A" ++ "S" ++ "B" :=
  ⟨(render_html_signature_rule "S" "x" "" "" [] (by decide)).1 (by decide) (by decide),
   (render_html_signature_rule "S" "A<!--SIGNATURE-->B" "A" "B" sigMarkerUpper (by decide)).2
     (Or.inl rfl) (by decide) (by decide) (by decide)⟩

/-- Claim C2, counterexample: for a contact row whose `CC` field is
`"a@x.com; b@x.com,c@x.com"`, the dispatcher hands the mail transport
the raw, unsplit, untrimmed string (note the space before `b@x.com`),
not the three parsed addresses that `parse_list_field` would produce. -/
theorem dispatch_cc_unparsed_counterexample :
    processRow (fun _ => true) false false "S" (fun _ => "B") ""
        [("email", "to@x.de"), ("cc", "a@x.com; b@x.com,c@x.com")]
      = RowAction.send ⟨"to@x.de", some "a@x.com; b@x.com,c@x.com", none, "S", "B", [], false⟩
    ∧ parse_list_field "a@x.com; b@x.com,c@x.com" = ["a@x.com", "b@x.com", "c@x.com"]
    ∧ ("a@x.com; b@x.com,c@x.com" : String) ≠ "a@x.com;b@x.com;c@x.com" := by
  refine ⟨by decide, by decide, by decide⟩

/-- Claim C2 (amended): `parse_list_field` splits a raw field on `,` or
`;`, trims each piece and drops empty pieces (every produced piece is
non-empty), and the scenario field `"a@x.com; b@x.com,c@x.com"` parses
to exactly the three trimmed addresses; the transport applies it to the
attachment-path field only — the `CC` and `BCC` fields are handed over
verbatim (set only when non-empty). -/
theorem send_outlook_field_handling (fileExists : String → Bool)
    (to_addr subject html cc bcc attachments : String) (display : Bool) (x : String) :
    ((send_outlook fileExists to_addr subject html cc bcc attachments display).cc
        = if cc != "" then some cc else none)
    ∧ ((send_outlook fileExists to_addr subject html cc bcc attachments display).bcc
        = if bcc != "" then some bcc else none)
    ∧ ((send_outlook fileExists to_addr subject html cc bcc attachments display).attachAdded
        = if attachments != "" then (parse_list_field attachments).filter fileExists else [])
    ∧ (x ∈ parse_list_field attachments → x ≠ "")
    ∧ parse_list_field "a@x.com; b@x.com,c@x.com" = ["a@x.com", "b@x.com", "c@x.com"] := by
  refine ⟨rfl, rfl, rfl, ?_, by decide⟩
  intro hx
  unfold parse_list_field at hx
  split at hx
  · simp at hx
  · have := (List.mem_filter.mp hx).2
    simpa using this

/-- Witness for C2 (amended), at concrete inputs: the piece `"q"` of
the field `"q, r"` is non-empty, and the scenario field parses to the
three addresses. -/
theorem send_outlook_field_handling_witness :
    ("q" : String) ≠ ""
    ∧ parse_list_field "a@x.com; b@x.com,c@x.com" = ["a@x.com", "b@x.com", "c@x.com"] :=
  ⟨(send_outlook_field_handling (fun _ => true) "" "" "" "" "" "q, r" false "q").2.2.2.1 (by decide),
   (send_outlook_field_handling (fun _ => true) "" "" "" "" "" "q, r" false "q").2.2.2.2⟩

/-- Claim C6, counterexample: a data cell beyond the header row gets the
synthesized key `spalte_2`, not `column_2` as the claim states. -/
theorem load_contacts_spalte_counterexample :
    load_contacts [[some "Email"], [some "a@x.com", some "extra"]]
      = [[("email", "a@x.com"), ("spalte_2", "extra")]]
    ∧ dictGet [("email", "a@x.com"), ("spalte_2", "extra")] "column_2" = none := by
  refine ⟨by decide, by decide⟩

/-- Claim C6 (amended): the loader treats the first row as headers,
trimming and lowercasing each (a blank header cell yields the literal
key `"none"`, the lowercased string form of Python's `None`); a column
inside the header row always keeps its own (possibly duplicate) header
as key, and only a data cell beyond the header row gets the synthesized
positional key `spalte_<n>` with `n` its 1-based column index. -/
theorem load_contacts_header_keys (headers : List String) (i : Nat) (s : String) :
    (headers.length ≤ i → keyAt headers i = "spalte_" ++ toString (i + 1))
    ∧ (∀ (h : i < headers.length), keyAt headers i = headers.get ⟨i, h⟩)
    ∧ headerKey (some s) = strLower (strTrim s)
    ∧ headerKey none = "none" := by
  refine ⟨?_, ?_, rfl, by decide⟩
  · intro h
    unfold keyAt
    rw [dif_neg (by omega)]
  · intro h
    unfold keyAt
    rw [dif_pos h]

/-- Witness for C6 (amended), at concrete inputs: past the one-column
header row the second cell gets key `spalte_2`; the header `" Email "`
becomes the key `email`. -/
theorem load_contacts_header_keys_witness :
    keyAt ["email"] 1 = "spalte_2" ∧ headerKey (some " Email ") = "email" :=
  ⟨((load_contacts_header_keys ["email"] 1 "").1 (by decide)).trans (by decide),
   ((load_contacts_header_keys ["email"] 1 " Email ").2.2.1).trans (by decide)⟩

/-- Claim C7: signature resolution never aborts the run: in `auto` mode
an absent store directory or a store with no `.htm` files resolves to
the empty signature with a warning; an explicitly named signature whose
file is absent also resolves to the empty signature with a warning; and
mode `none` yields the empty signature with no warning, independent of
the store (no I/O). -/
theorem resolveSignature_lenient :
    resolveSignature "auto" none = ("", true)
    ∧ resolveSignature "auto" (some []) = ("", true)
    ∧ (∀ (nm : String) (store : Option (List SigFile)),
        strLower nm ≠ "auto" → strLower nm ≠ "none" →
        (storeFiles store).find? (fun f => f.name == nm) = none →
        resolveSignature nm store = ("", true))
    ∧ (∀ (store : Option (List SigFile)), resolveSignature "none" store = ("", false)) := by
  refine ⟨by decide, by decide, ?_, fun store => rfl⟩
  intro nm store h1 h2 h3
  unfold resolveSignature
  rw [if_neg h1, if_neg h2]
  unfold read_signature
  rw [h3]

/-- Witness for C7, at concrete inputs: the named signature
`"Standard"` missing from a store that holds only `"Other"` resolves to
the empty signature with a warning; mode `none` with an absent store
directory resolves silently to the empty signature. -/
theorem resolveSignature_lenient_witness :
    resolveSignature "Standard" (some [⟨"Other", 3, "X"⟩]) = ("", true)
    ∧ resolveSignature "none" none = ("", false) :=
  ⟨resolveSignature_lenient.2.2.1 "Standard" (some [⟨"Other", 3, "X"⟩])
      (by decide) (by decide) (by decide),
   resolveSignature_lenient.2.2.2 none⟩

/-- Claim C3, counterexample: with the male gender keyword and empty
title and names, the greeting is `"Sehr geehrter Herr"` — the final
strip removes the trailing space that the claim's formula
`"Sehr geehrter " + TitlePrefix("Herr") + " " + (last_name or full_name)`
keeps. -/
theorem build_anrede_brief_trailing_space_counterexample :
    build_anrede_brief "Herr" "" "" "" = "Sehr geehrter Herr"
    ∧ ("Sehr geehrter Herr" : String) ≠ "Sehr geehrter " ++ pick "Herr" "" ++ " " ++ "" := by
  refine ⟨by decide, by decide⟩

/-- Claim C3 (amended): with inputs trimmed and gender compared
case-insensitively, the male keyword yields
`strip("Sehr geehrter " + TitlePrefix("Herr") + " " + (last_name or full_name))`,
the female keyword the analogous `"Sehr geehrte "` form (the final
strip only matters when both name parts are empty), and any other
gender yields `"Guten Tag " + full_name` when a name is present and
exactly `"Guten Tag"` otherwise. -/
theorem build_anrede_brief_rule (anrede titel vorname nachname : String) :
    (strLower (normalizeStr anrede) = "herr" →
      build_anrede_brief anrede titel vorname nachname
        = strTrim ("Sehr geehrter " ++ pick "Herr" (normalizeStr titel) ++ " "
            ++ (if normalizeStr nachname != "" then normalizeStr nachname
                else full_name vorname nachname)))
    ∧ (strLower (normalizeStr anrede) = "frau" →
      build_anrede_brief anrede titel vorname nachname
        = strTrim ("Sehr geehrte " ++ pick "Frau" (normalizeStr titel) ++ " "
            ++ (if normalizeStr nachname != "" then normalizeStr nachname
                else full_name vorname nachname)))
    ∧ (strLower (normalizeStr anrede) ≠ "herr" → strLower (normalizeStr anrede) ≠ "frau" →
      build_anrede_brief anrede titel vorname nachname
        = if full_name vorname nachname != "" then "Guten Tag " ++ full_name vorname nachname
          else "Guten Tag") := by
  refine ⟨?_, ?_, ?_⟩
  · intro h
    simp only [build_anrede_brief, h]
    simp
  · intro h
    simp only [build_anrede_brief, h]
    simp
  · intro h1 h2
    simp only [build_anrede_brief]
    rw [if_neg h1, if_neg h2]

/-- Witness for C3 (amended), at concrete inputs: a male-keyword row
with a title and last name, and an unknown-gender row with a first
name only. -/
theorem build_anrede_brief_rule_witness :
    build_anrede_brief "Herr" "Dr." "Max" "Muster" = "Sehr geehrter Herr Dr. Muster"
    ∧ build_anrede_brief "" "" "Max" "" = "Guten Tag Max" :=
  ⟨((build_anrede_brief_rule "Herr" "Dr." "Max" "Muster").1 (by decide)).trans (by decide),
   ((build_anrede_brief_rule "" "" "Max" "").2.2 (by decide) (by decide)).trans (by decide)⟩

/-- Claim C4: the salutation never duplicates a salutation keyword
brought by the title: an empty (trimmed) title leaves the default
salutation word unchanged, and a trimmed title that already starts with
`Herr` or `Frau` (case-insensitively) is used as-is — in the greeting
it appears without the default salutation word prefixed. -/
theorem pick_no_duplicate (titel vorname nachname : String) :
    (normalizeStr titel = "" → ∀ (fb : String), pick fb (normalizeStr titel) = fb)
    ∧ ((strStartsWith (strLower (normalizeStr titel)) "herr" = true
        ∨ strStartsWith (strLower (normalizeStr titel)) "frau" = true) →
      (∀ (fb : String), pick fb (normalizeStr titel) = normalizeStr titel)
      ∧ build_anrede_brief "Herr" titel vorname nachname
          = strTrim ("Sehr geehrter " ++ normalizeStr titel ++ " "
              ++ (if normalizeStr nachname != "" then normalizeStr nachname
                  else full_name vorname nachname))) := by
  constructor
  · intro h fb
    simp [pick, h]
  · intro hstart
    have hpick : ∀ (fb : String), pick fb (normalizeStr titel) = normalizeStr titel := by
      intro fb
      unfold pick
      by_cases hempty : normalizeStr titel = ""
      · rw [hempty] at hstart
        rcases hstart with h | h <;> simp [strStartsWith, strLower, List.isPrefixOf] at h
      · rw [if_neg hempty, if_pos (by rcases hstart with h | h <;> simp [h])]
    constructor
    · exact hpick
    · simp only [build_anrede_brief]
      rw [if_pos (by decide), hpick]

/-- Witness for C4, at concrete inputs: the empty title keeps the
default `Herr`; the title `" Herr Prof. "` already starts with the
salutation keyword and is used as-is, with no duplicated `Herr` in the
greeting. -/
theorem pick_no_duplicate_witness :
    pick "Herr" "" = "Herr"
    ∧ build_anrede_brief "Herr" " Herr Prof. " "" "Muster" = "Sehr geehrter Herr Prof. Muster" :=
  ⟨by
    have h := (pick_no_duplicate "" "" "").1 (by decide) "Herr"
    simpa using h,
   by
    have h := ((pick_no_duplicate " Herr Prof. " "" "Muster").2 (Or.inl (by decide))).2
    exact h.trans (by decide)⟩

/-- Claim C5: every record produced by the loader has a non-empty
(trimmed) `email` value — a row whose email cell is blank or
whitespace-only never appears in the output, whatever its other fields —
and header matching is case-insensitive: `Email`, `EMAIL` and `email`
all normalize to the key `email`. -/
theorem load_contacts_email_filter (rows : List (List (Option String))) (r : Dict) :
    (r ∈ load_contacts rows → dictGetD r "email" "" ≠ "")
    ∧ headerKey (some "Email") = "email"
    ∧ headerKey (some "EMAIL") = "email"
    ∧ headerKey (some "email") = "email" := by
  refine ⟨?_, by decide, by decide, by decide⟩
  intro hr
  rcases rows with _ | ⟨hdr, body⟩
  · simp [load_contacts] at hr
  · by_cases hlen : (hdr :: body).length < 2
    · unfold load_contacts at hr
      rw [if_pos hlen] at hr
      simp at hr
    · unfold load_contacts at hr
      rw [if_neg hlen] at hr
      have := (List.mem_filter.mp hr).2
      simpa using this

/-- Witness for C5, at a concrete spreadsheet: the single loaded record
of a one-contact sheet has the non-empty email `a@x.com`. -/
theorem load_contacts_email_filter_witness :
    dictGetD [("email", "a@x.com")] "email" "" ≠ "" :=
  (load_contacts_email_filter [[some "EMAIL"], [some " a@x.com "]] [("email", "a@x.com")]).1
    (by decide)

/-- Claim C8: a row with non-empty email but neither a row-level
subject nor a global subject is, in live mode, skipped (no transport
call) and counted as failed; in dry-run mode the same row is still
printed as a preview with the placeholder subject `(leer)`; and no
dry-run row ever reaches the transport. -/
theorem processRow_subjectless (fileExists : String → Bool) (display : Bool)
    (gs : String) (expand : Dict → String) (sig : String) (c : Dict)
    (hemail : dictGetD c "email" "" ≠ "")
    (hsub : (if strTrim (dictGetD c "betreff" "") != "" then strTrim (dictGetD c "betreff" "")
             else gs) = "") :
    processRow fileExists false display gs expand sig c = RowAction.skipNoSubject
    ∧ countsAsFailed (processRow fileExists false display gs expand sig c) = true
    ∧ processRow fileExists true display gs expand sig c
        = RowAction.preview (dictGetD c "email" "") "(leer)" (dictGetD c "cc" "") (dictGetD c "bcc" "")
            (if dictGetD c "anhangpfad" "" != "" then dictGetD c "anhangpfad" ""
             else dictGetD c "anhang" "")
            (render_html (expand (buildCtx c)) sig)
    ∧ (∀ (c' : Dict) (m : MailItem),
        processRow fileExists true display gs expand sig c' ≠ RowAction.send m) := by
  have hlive : processRow fileExists false display gs expand sig c = RowAction.skipNoSubject := by
    simp only [processRow]
    rw [if_neg hemail, if_pos ⟨hsub, trivial⟩]
  refine ⟨hlive, by rw [hlive]; rfl, ?_, ?_⟩
  · simp only [processRow]
    rw [if_neg hemail, if_neg (by intro hand; cases hand.2), if_pos trivial, hsub]
    rfl
  · intro c' m
    simp only [processRow]
    by_cases he : dictGetD c' "email" "" = ""
    · simp [he]
    · rw [if_neg he, if_neg (by intro hand; cases hand.2), if_pos trivial]
      intro hcontra
      cases hcontra

/-- Witness for C8, at a concrete row with an email but no subject
anywhere: live mode skips and counts it failed; dry-run mode previews
it with the `(leer)` placeholder. -/
theorem processRow_subjectless_witness :
    processRow (fun _ => false) false false "" (fun _ => "") "" [("email", "a@x.de")]
        = RowAction.skipNoSubject
    ∧ countsAsFailed (processRow (fun _ => false) false false "" (fun _ => "") "" [("email", "a@x.de")])
        = true
    ∧ processRow (fun _ => false) true false "" (fun _ => "") "" [("email", "a@x.de")]
        = RowAction.preview "a@x.de" "(leer)" "" "" "" (render_html "" "") := by
  have h := processRow_subjectless (fun _ => false) false "" (fun _ => "") "" [("email", "a@x.de")]
    (by decide) (by decide)
  exact ⟨h.1, h.2.1, h.2.2.1⟩

/-- Claim C9: every loaded record is built from its data row by
writing cells left to right into a fresh dict, so when several columns
share one (normalized) key, the record maps that key to the value of
the rightmost such column — the earlier columns' values are dropped. -/
theorem load_contacts_rightmost_wins :
    (∀ (rows : List (List (Option String))) (r : Dict), r ∈ load_contacts rows →
      ∃ hdr body row, rows = hdr :: body ∧ row ∈ body ∧ r = buildRec (hdr.map headerKey) row)
    ∧ (∀ (headers : List String) (row : List (Option String)) (k : String) (j : Nat),
        j < row.length → keyAt headers j = k →
        (∀ m, j < m → m < row.length → keyAt headers m ≠ k) →
        dictGet (buildRec headers row) k = some (cellVal (row.getD j none))) := by
  constructor
  · intro rows r hr
    rcases rows with _ | ⟨hdr, body⟩
    · simp [load_contacts] at hr
    · by_cases hlen : (hdr :: body).length < 2
      · unfold load_contacts at hr
        rw [if_pos hlen] at hr
        simp at hr
      · unfold load_contacts at hr
        rw [if_neg hlen] at hr
        obtain ⟨hmem, _⟩ := List.mem_filter.mp hr
        obtain ⟨row, hrow, heq⟩ := List.mem_map.mp hmem
        exact ⟨hdr, body, row, rfl, hrow, heq.symm⟩
  · intro headers row k j hj hkey hafter
    unfold buildRec
    rw [dictGet_buildRecAux]
    rw [lastWrite_last headers k row 0 j (by omega) (by simpa using hj) hkey
      (fun m h1 h2 => hafter m h1 (by simpa using h2))]
    simp

/-- Witness for C9, at a concrete row with a duplicated `email`
header: the record keeps the rightmost column's value `z@w`. -/
theorem load_contacts_rightmost_wins_witness :
    dictGet (buildRec ["email", "email"] [some "x@y", some "z@w"]) "email" = some "z@w" := by
  have h := load_contacts_rightmost_wins.2 ["email", "email"] [some "x@y", some "z@w"] "email" 1
    (by decide) (by decide) (fun m h1 h2 => by simp only [List.length_cons, List.length_nil] at h2; omega)
  simpa using h
